import Mathlib

/-!
Shallow embedding of the Flask to-do application (`src/app.py`).

The application is a thin mapping from five HTTP routes to SQL statements on
a single SQLite table `tasks (id INTEGER PRIMARY KEY AUTOINCREMENT,
description TEXT NOT NULL, completed BOOLEAN DEFAULT FALSE, created_at
TIMESTAMP DEFAULT CURRENT_TIMESTAMP)`.

Modelling decisions:
* A row is a `Task`: `id : Nat`, `description : String`, `completed : Int`
  (SQLite stores the boolean column as an integer; Python's `bool(...)`
  coerces any nonzero value to `True`), `created_at : Nat` (the
  `CURRENT_TIMESTAMP` string compares lexicographically, which agrees with
  chronological order, so a `Nat` clock value is a faithful stand-in).
* The persisted store is a `DB`: the list of rows in insertion order plus
  the `AUTOINCREMENT` counter `nextId` (SQLite's `AUTOINCREMENT` guarantees
  a fresh, never-reused rowid strictly larger than every id ever assigned).
* Each handler is a pure function from its inputs and the current `DB` to
  an HTTP response (status code and JSON body) and the new `DB`.  The wall
  clock is passed in as the `now` argument of the add handler.
* Python's `str.strip()` is embedded as `pyStrip`, dropping leading and
  trailing whitespace characters from the character list of the string.
* `SELECT * FROM tasks ORDER BY created_at DESC` is embedded as an
  insertion sort by `created_at` descending; SQLite leaves the relative
  order of ties unspecified, and the sort is one valid refinement of that.
-/

namespace Todo

/-- A row of the `tasks` table. -/
structure Task where
  id : Nat
  description : String
  completed : Int
  created_at : Nat
  deriving DecidableEq, Repr

/-- The persisted SQLite state: the rows in insertion order together with
the `AUTOINCREMENT` counter (the next rowid to be assigned). -/
structure DB where
  rows : List Task
  nextId : Nat
  deriving DecidableEq, Repr

/-- A serialized task as it appears in JSON responses (`completed` has been
coerced to a boolean by `bool(task['completed'])`). -/
structure TaskOut where
  id : Nat
  description : String
  completed : Bool
  created_at : Nat
  deriving DecidableEq, Repr

/-- JSON response bodies produced by the handlers. -/
inductive Body where
  | tasks (ts : List TaskOut)
  | task (t : TaskOut)
  | err (msg : String)
  | msg (m : String)
  deriving DecidableEq, Repr

/-- Python truthiness of a stored SQLite integer: `bool(x)` is `True`
exactly when the integer is nonzero. -/
def truthy (i : Int) : Bool := decide (i ≠ 0)

/-- How SQLite stores the Python booleans `True` / `False` bound into an
`INSERT`/`UPDATE` parameter: `1` / `0`. -/
def boolToInt (b : Bool) : Int := if b then 1 else 0

/-- Row-to-JSON conversion used by all three task-returning handlers
(`app.py` lines 54-62, 94-99, 133-138): `id`, `description` and
`created_at` verbatim, `completed` through `bool(...)`. -/
def rowToJson (t : Task) : TaskOut :=
  { id := t.id, description := t.description,
    completed := truthy t.completed, created_at := t.created_at }

/-- Character-list version of Python `str.strip()`: drop leading
whitespace, then drop trailing whitespace. -/
def stripL (l : List Char) : List Char :=
  ((l.dropWhile Char.isWhitespace).reverse.dropWhile Char.isWhitespace).reverse

/-- Python `str.strip()` on strings. -/
def pyStrip (s : String) : String := String.mk (stripL s.data)

/-- The ordering used by `ORDER BY created_at DESC`: `a` may come before
`b` when `b.created_at ≤ a.created_at`. -/
def createdDesc (a b : Task) : Prop := b.created_at ≤ a.created_at

instance : DecidableRel createdDesc := fun _ _ => Nat.decLe _ _

instance : IsTotal Task createdDesc :=
  ⟨fun a b => (Nat.le_total b.created_at a.created_at).imp id id⟩

instance : IsTrans Task createdDesc :=
  ⟨fun _ _ _ h1 h2 => Nat.le_trans h2 h1⟩

/-- Embedding of `SELECT * FROM tasks ORDER BY created_at DESC` (`app.py` line 49):
the rows sorted by creation time, most recent first. -/
def sortByCreatedDesc (l : List Task) : List Task := l.insertionSort createdDesc

/-- The JSON array returned by `GET /api/tasks`. -/
def listAllJson (db : DB) : List TaskOut := (sortByCreatedDesc db.rows).map rowToJson

/-- Handler `get_tasks` (`app.py` lines 44-64): `GET /api/tasks` returns 200 with
every task, ordered by `created_at` descending, serialized to JSON. -/
def get_tasks (db : DB) : Nat × Body := (200, Body.tasks (listAllJson db))

/-- Handler `add_task` (`app.py` lines 66-101): `POST /add` reads
`data.get('description', '').strip()`; an empty result is rejected with
400, otherwise a row `(description, False)` is inserted, re-selected by its
fresh primary key (`lastrowid`), and returned with 201.  The re-select by
the fresh `AUTOINCREMENT` id returns exactly the row just inserted. -/
def add_task (body : Option String) (now : Nat) (db : DB) : (Nat × Body) × DB :=
  let description := pyStrip (body.getD "")
  if description = "" then
    ((400, Body.err "Task description cannot be empty"), db)
  else
    let t : Task := { id := db.nextId, description := description,
                      completed := boolToInt false, created_at := now }
    ((201, Body.task (rowToJson t)), { rows := db.rows ++ [t], nextId := db.nextId + 1 })

/-- Embedding of `UPDATE tasks SET completed = ? WHERE id = ?` (`app.py` lines 120-123):
set the `completed` column of every row matching the id. -/
def setCompleted (task_id : Nat) (v : Int) (l : List Task) : List Task :=
  l.map (fun r => if r.id == task_id then { r with completed := v } else r)

/-- Handler `complete_task` (`app.py` lines 103-140): `PUT /complete/<id>` selects
the row; a missing row yields 404; otherwise `completed` is set to
`not bool(task['completed'])`, the row is re-selected and returned with
200.  The re-select by the unique primary key returns the updated row. -/
def complete_task (task_id : Nat) (db : DB) : (Nat × Body) × DB :=
  match db.rows.find? (fun r => r.id == task_id) with
  | none => ((404, Body.err "Task not found"), db)
  | some task =>
      let new_status : Bool := ! truthy task.completed
      let v : Int := boolToInt new_status
      ((200, Body.task (rowToJson { task with completed := v })),
       { db with rows := setCompleted task_id v db.rows })

/-- Handler `delete_task` (`app.py` lines 142-162): `DELETE /delete/<id>` selects
the row; a missing row yields 404; otherwise the row is deleted and a
confirmation message returned with 200. -/
def delete_task (task_id : Nat) (db : DB) : (Nat × Body) × DB :=
  match db.rows.find? (fun r => r.id == task_id) with
  | none => ((404, Body.err "Task not found"), db)
  | some _ => ((200, Body.msg "Task deleted successfully"),
               { db with rows := db.rows.filter (fun r => ! (r.id == task_id)) })

/-- The store before the table exists: no rows, `AUTOINCREMENT` starts
at 1. -/
def emptyDB : DB := { rows := [], nextId := 1 }

/-- Schema setup `init_db` (`app.py` lines 15-31): `CREATE TABLE IF NOT EXISTS` — the
persisted schema (modelled as `Option DB`, `none` when the table is
absent) is created empty when missing and left untouched when present. -/
def init_db (store : Option DB) : Option DB := some (store.getD emptyDB)

/-- One client operation against the store (the state effect of each
mutating route; `GET` routes do not change the state). -/
inductive Op where
  | add (body : Option String) (now : Nat)
  | toggle (task_id : Nat)
  | del (task_id : Nat)
  deriving Repr

/-- The state effect of one operation. -/
def applyOp (db : DB) : Op → DB
  | Op.add body now => (add_task body now db).2
  | Op.toggle task_id => (complete_task task_id db).2
  | Op.del task_id => (delete_task task_id db).2

/-- The state after a sequence of operations. -/
def applyOps (db : DB) (ops : List Op) : DB := ops.foldl applyOp db

/-- The state after a sequence of adds (used for the listing claim). -/
def addAll (ops : List (String × Nat)) (db : DB) : DB :=
  ops.foldl (fun d p => (add_task (some p.1) p.2 d).2) db

/-! ### Helper lemmas -/

/-- Function `truthy` inverts the storage encoding of a Python boolean. -/
theorem truthy_boolToInt (b : Bool) : truthy (boolToInt b) = b := by
  cases b <;> rfl

/-- Updating the `completed` column commutes with the primary-key lookup. -/
theorem find?_setCompleted (task_id : Nat) (v : Int) (l : List Task) :
    (setCompleted task_id v l).find? (fun r => r.id == task_id) =
      (l.find? (fun r => r.id == task_id)).map (fun r => { r with completed := v }) := by
  induction l with
  | nil => rfl
  | cons a t ih =>
    by_cases h : a.id = task_id
    · simp [setCompleted, h]
    · simp only [setCompleted, List.map_cons] at ih ⊢
      rw [if_neg (by simpa using h), List.find?_cons_of_neg _ (by simpa using h),
        List.find?_cons_of_neg _ (by simpa using h), ih]

/-- Dropping a prefix twice is the same as dropping it once. -/
theorem dropWhile_idem {α : Type} (p : α → Bool) (l : List α) :
    (l.dropWhile p).dropWhile p = l.dropWhile p := by
  induction l with
  | nil => rfl
  | cons a t ih => cases h : p a <;> simp [List.dropWhile_cons, h, ih]

/-- Applying `dropWhile` never lengthens a list. -/
theorem length_dropWhile_le' {α : Type} (p : α → Bool) (l : List α) :
    (l.dropWhile p).length ≤ l.length := by
  induction l with
  | nil => simp
  | cons a t ih =>
    cases h : p a
    · simp [List.dropWhile_cons, h]
    · simp only [List.dropWhile_cons, h, if_pos rfl, List.length_cons]
      exact Nat.le_succ_of_le ih

/-- Applying `dropWhile` removes an initial segment: the original list is some
prefix followed by the result. -/
theorem exists_append_dropWhile {α : Type} (p : α → Bool) (l : List α) :
    ∃ u, u ++ l.dropWhile p = l := by
  induction l with
  | nil => exact ⟨[], rfl⟩
  | cons a t ih =>
    cases h : p a
    · exact ⟨[], by simp [List.dropWhile_cons, h]⟩
    · obtain ⟨u, hu⟩ := ih
      exact ⟨a :: u, by simp [List.dropWhile_cons, h, hu]⟩

/-- A stripped character list has no leading whitespace. -/
theorem dropWhile_stripL (l : List Char) :
    (stripL l).dropWhile Char.isWhitespace = stripL l := by
  set ws := Char.isWhitespace with hws
  set l1 := l.dropWhile ws with hl1
  have h1 : l1.dropWhile ws = l1 := dropWhile_idem ws l
  have hm : stripL l = (l1.reverse.dropWhile ws).reverse := rfl
  obtain ⟨u, hu⟩ := exists_append_dropWhile ws l1.reverse
  have hl1eq : l1 = stripL l ++ u.reverse := by
    have := congrArg List.reverse hu
    simpa [hm, List.reverse_append] using this.symm
  cases hsplit : stripL l with
  | nil => simp [hsplit]
  | cons a tl =>
    have ha : ws a = false := by
      by_contra hcon
      have ha' : ws a = true := by
        cases hwa : ws a
        · exact absurd hwa hcon
        · rfl
      have : l1.dropWhile ws = (tl ++ u.reverse).dropWhile ws := by
        rw [hl1eq, hsplit]
        simp [List.dropWhile_cons, ha']
      have hlen : l1.length ≤ (tl ++ u.reverse).length := by
        rw [← h1, this]
        exact length_dropWhile_le' ws _
      rw [hl1eq, hsplit] at hlen
      simp only [List.length_cons, List.length_append] at hlen
      omega
    simp [List.dropWhile_cons, ha]

/-- A stripped character list has no trailing whitespace. -/
theorem dropWhile_reverse_stripL (l : List Char) :
    (stripL l).reverse.dropWhile Char.isWhitespace = (stripL l).reverse := by
  have h : (stripL l).reverse =
      ((l.dropWhile Char.isWhitespace).reverse).dropWhile Char.isWhitespace := by
    unfold stripL
    rw [List.reverse_reverse]
  rw [h]
  exact dropWhile_idem _ _

/-- Stripping is idempotent. -/
theorem stripL_idem (l : List Char) : stripL (stripL l) = stripL l := by
  show ((((stripL l).dropWhile _).reverse).dropWhile _).reverse = stripL l
  rw [dropWhile_stripL, dropWhile_reverse_stripL, List.reverse_reverse]

/-- A whitespace-only character list strips to nothing. -/
theorem stripL_eq_nil_of_all (l : List Char) (h : ∀ c ∈ l, c.isWhitespace) :
    stripL l = [] := by
  unfold stripL
  rw [List.dropWhile_eq_nil_iff.mpr h]
  rfl

/-- Python `strip` is idempotent. -/
theorem pyStrip_idem (s : String) : pyStrip (pyStrip s) = pyStrip s :=
  congrArg String.mk (stripL_idem s.data)

/-- Unfolding of `complete_task` when the lookup succeeds. -/
theorem complete_task_found (db : DB) (task_id : Nat) (t : Task)
    (h : db.rows.find? (fun r => r.id == task_id) = some t) :
    complete_task task_id db =
      ((200, Body.task (rowToJson { t with completed := boolToInt (! truthy t.completed) })),
       { db with rows := setCompleted task_id (boolToInt (! truthy t.completed)) db.rows }) := by
  unfold complete_task
  rw [h]

/-- One successful toggle: the row with the toggled id is re-found with its
`completed` column rewritten to the flipped boolean, and the response
status is 200. -/
theorem toggle_step (db : DB) (task_id : Nat) (t : Task)
    (h : db.rows.find? (fun r => r.id == task_id) = some t) :
    ((complete_task task_id db).2).rows.find? (fun r => r.id == task_id) =
      some { t with completed := boolToInt (! truthy t.completed) } ∧
    (complete_task task_id db).1.1 = 200 := by
  have hrows : (complete_task task_id db).2.rows =
      setCompleted task_id (boolToInt (! truthy t.completed)) db.rows := by
    rw [complete_task_found db task_id t h]
  constructor
  · rw [hrows, find?_setCompleted, h]
    rfl
  · rw [complete_task_found db task_id t h]

/-! ### Claim theorems -/

/-- C8: `init_db` is idempotent — running it when the table already exists
leaves the stored rows unchanged, and running it twice equals running it
once. -/
theorem init_db_idempotent :
    (∀ store : Option DB, init_db (init_db store) = init_db store) ∧
    (∀ db : DB, init_db (some db) = some db) :=
  ⟨fun store => by cases store <;> rfl, fun _ => rfl⟩

/-- C2: toggling or deleting an id with no matching row returns 404 with
body `error: Task not found` and leaves the persisted state unchanged. -/
theorem missing_id_404 (db : DB) (task_id : Nat)
    (h : db.rows.find? (fun r => r.id == task_id) = none) :
    complete_task task_id db = ((404, Body.err "Task not found"), db) ∧
    delete_task task_id db = ((404, Body.err "Task not found"), db) := by
  constructor <;> simp [complete_task, delete_task, h]

/-- C2 witness: id 7 is absent from the empty store. -/
theorem missing_id_404_witness :
    emptyDB.rows.find? (fun r => r.id == 7) = none ∧
    (complete_task 7 emptyDB = ((404, Body.err "Task not found"), emptyDB) ∧
     delete_task 7 emptyDB = ((404, Body.err "Task not found"), emptyDB)) :=
  ⟨rfl, missing_id_404 emptyDB 7 rfl⟩

/-- C1: toggling an existing task once flips its `completed` value (both
toggles answer 200), and toggling twice in succession restores the
original value. -/
theorem toggle_twice_restores (db : DB) (task_id : Nat) (t : Task)
    (h : db.rows.find? (fun r => r.id == task_id) = some t) :
    ∃ t1 t2 : Task,
      ((complete_task task_id db).2).rows.find? (fun r => r.id == task_id) = some t1 ∧
      ((complete_task task_id (complete_task task_id db).2).2).rows.find?
        (fun r => r.id == task_id) = some t2 ∧
      truthy t1.completed = ! truthy t.completed ∧
      truthy t2.completed = truthy t.completed ∧
      (complete_task task_id db).1.1 = 200 ∧
      (complete_task task_id (complete_task task_id db).2).1.1 = 200 := by
  obtain ⟨hf1, hs1⟩ := toggle_step db task_id t h
  obtain ⟨hf2, hs2⟩ := toggle_step (complete_task task_id db).2 task_id _ hf1
  refine ⟨_, _, hf1, hf2, ?_, ?_, hs1, hs2⟩
  · exact truthy_boolToInt _
  · show truthy (boolToInt (! truthy (boolToInt (! truthy t.completed)))) = _
    rw [truthy_boolToInt, truthy_boolToInt, Bool.not_not]

/-- C1 witness: a one-task store with the task stored uncompleted. -/
theorem toggle_twice_restores_witness :
    (DB.mk [Task.mk 1 "a" 0 5] 2).rows.find? (fun r => r.id == 1) =
      some (Task.mk 1 "a" 0 5) ∧
    (∃ t1 t2 : Task,
      ((complete_task 1 (DB.mk [Task.mk 1 "a" 0 5] 2)).2).rows.find?
        (fun r => r.id == 1) = some t1 ∧
      ((complete_task 1 (complete_task 1 (DB.mk [Task.mk 1 "a" 0 5] 2)).2).2).rows.find?
        (fun r => r.id == 1) = some t2 ∧
      truthy t1.completed = ! truthy (Task.mk 1 "a" 0 5).completed ∧
      truthy t2.completed = truthy (Task.mk 1 "a" 0 5).completed ∧
      (complete_task 1 (DB.mk [Task.mk 1 "a" 0 5] 2)).1.1 = 200 ∧
      (complete_task 1 (complete_task 1 (DB.mk [Task.mk 1 "a" 0 5] 2)).2).1.1 = 200) :=
  ⟨rfl, toggle_twice_restores (DB.mk [Task.mk 1 "a" 0 5] 2) 1 (Task.mk 1 "a" 0 5) rfl⟩

/-- C7: a successful toggle rewrites the row list pointwise, preserving
`id`, `description` and `created_at` of every row and leaving every row
with a different id entirely unchanged. -/
theorem toggle_frame (db : DB) (task_id : Nat) (t : Task)
    (h : db.rows.find? (fun r => r.id == task_id) = some t) :
    ∃ g : Task → Task,
      ((complete_task task_id db).2).rows = db.rows.map g ∧
      (∀ r : Task, (g r).id = r.id ∧ (g r).description = r.description ∧
        (g r).created_at = r.created_at) ∧
      (∀ r : Task, r.id ≠ task_id → g r = r) := by
  refine ⟨fun r => if r.id == task_id then
      { r with completed := boolToInt (! truthy t.completed) } else r, ?_, ?_, ?_⟩
  · simp [complete_task, h, setCompleted]
  · intro r
    by_cases hr : r.id = task_id <;> simp [hr]
  · intro r hr
    simp [hr]

/-- C7 witness: a two-task store, toggling task 1. -/
theorem toggle_frame_witness :
    (DB.mk [Task.mk 1 "a" 0 5, Task.mk 2 "b" 1 6] 3).rows.find?
      (fun r => r.id == 1) = some (Task.mk 1 "a" 0 5) ∧
    (∃ g : Task → Task,
      ((complete_task 1 (DB.mk [Task.mk 1 "a" 0 5, Task.mk 2 "b" 1 6] 3)).2).rows =
        (DB.mk [Task.mk 1 "a" 0 5, Task.mk 2 "b" 1 6] 3).rows.map g ∧
      (∀ r : Task, (g r).id = r.id ∧ (g r).description = r.description ∧
        (g r).created_at = r.created_at) ∧
      (∀ r : Task, r.id ≠ 1 → g r = r)) :=
  ⟨rfl, toggle_frame (DB.mk [Task.mk 1 "a" 0 5, Task.mk 2 "b" 1 6] 3) 1
    (Task.mk 1 "a" 0 5) rfl⟩

/-- C10: serialization sends the stored `completed` integer to its Boolean
truthiness (nonzero ↦ true, zero ↦ false) in every task-bearing response,
and a toggle writes back only `0` or `1`, flipping the truthiness of the
stored value. -/
theorem completed_truthiness (db : DB) (task_id : Nat) (t : Task) (r : Task)
    (h : db.rows.find? (fun r => r.id == task_id) = some t) :
    (rowToJson r).completed = truthy r.completed ∧
    (∀ i : Int, truthy i = true ↔ i ≠ 0) ∧
    (get_tasks db).2 = Body.tasks ((sortByCreatedDesc db.rows).map rowToJson) ∧
    (∃ v : Int, (v = 0 ∨ v = 1) ∧ truthy v = ! truthy t.completed ∧
      (complete_task task_id db).2.rows = setCompleted task_id v db.rows ∧
      (complete_task task_id db).1 =
        (200, Body.task (TaskOut.mk t.id t.description
          (! truthy t.completed) t.created_at))) := by
  refine ⟨rfl, fun i => by simp [truthy], rfl,
    boolToInt (! truthy t.completed), ?_, truthy_boolToInt _, ?_, ?_⟩
  · cases htc : truthy t.completed <;> simp [boolToInt]
  · rw [complete_task_found db task_id t h]
  · rw [complete_task_found db task_id t h]
    simp [rowToJson, truthy_boolToInt]

/-- C10 witness: a store holding an out-of-range stored integer `2`. -/
theorem completed_truthiness_witness :
    (DB.mk [Task.mk 1 "a" 2 5] 2).rows.find? (fun r => r.id == 1) =
      some (Task.mk 1 "a" 2 5) ∧
    ((rowToJson (Task.mk 3 "c" 2 9)).completed = truthy (Task.mk 3 "c" 2 9).completed ∧
    (∀ i : Int, truthy i = true ↔ i ≠ 0) ∧
    (get_tasks (DB.mk [Task.mk 1 "a" 2 5] 2)).2 =
      Body.tasks ((sortByCreatedDesc (DB.mk [Task.mk 1 "a" 2 5] 2).rows).map rowToJson) ∧
    (∃ v : Int, (v = 0 ∨ v = 1) ∧
      truthy v = ! truthy (Task.mk 1 "a" 2 5).completed ∧
      (complete_task 1 (DB.mk [Task.mk 1 "a" 2 5] 2)).2.rows =
        setCompleted 1 v (DB.mk [Task.mk 1 "a" 2 5] 2).rows ∧
      (complete_task 1 (DB.mk [Task.mk 1 "a" 2 5] 2)).1 =
        (200, Body.task (TaskOut.mk 1 "a"
          (! truthy (Task.mk 1 "a" 2 5).completed) 5)))) :=
  ⟨rfl, completed_truthiness (DB.mk [Task.mk 1 "a" 2 5] 2) 1
    (Task.mk 1 "a" 2 5) (Task.mk 3 "c" 2 9) rfl⟩

/-- C3: a `POST /add` whose description is missing, empty, or
whitespace-only is answered 400 with the validation error body, and the
store is unchanged (no row inserted). -/
theorem empty_description_400 (body : Option String) (now : Nat) (db : DB)
    (h : body = none ∨ ∃ s, body = some s ∧ ∀ c ∈ s.data, c.isWhitespace) :
    add_task body now db = ((400, Body.err "Task description cannot be empty"), db) := by
  have hempty : pyStrip (body.getD "") = "" := by
    rcases h with h | ⟨s, rfl, hs⟩
    · subst h
      rfl
    · show pyStrip s = ""
      unfold pyStrip
      rw [stripL_eq_nil_of_all _ hs]
  simp [add_task, hempty]

/-- C3 witness: a whitespace-only description over a one-task store. -/
theorem empty_description_400_witness :
    ((some "  " : Option String) = none ∨
      ∃ s, (some "  " : Option String) = some s ∧ ∀ c ∈ s.data, c.isWhitespace) ∧
    add_task (some "  ") 9 (DB.mk [Task.mk 1 "a" 0 5] 2) =
      ((400, Body.err "Task description cannot be empty"), DB.mk [Task.mk 1 "a" 0 5] 2) :=
  ⟨Or.inr ⟨"  ", rfl, by decide⟩,
   empty_description_400 (some "  ") 9 (DB.mk [Task.mk 1 "a" 0 5] 2)
     (Or.inr ⟨"  ", rfl, by decide⟩)⟩

/-- Every stored description is non-empty and is a fixed point of
stripping (no surrounding whitespace). -/
def GoodDescs (db : DB) : Prop :=
  ∀ r ∈ db.rows, r.description ≠ "" ∧ pyStrip r.description = r.description

/-- C9: an accepted add persists exactly the stripped submitted
description, and the resulting invariant — every stored description is
non-empty with no surrounding whitespace — is preserved by every
operation. -/
theorem stripped_description_invariant (db : DB) (s : String) (now : Nat) (op : Op)
    (hs : pyStrip s ≠ "") (hg : GoodDescs db) :
    (add_task (some s) now db).2.rows.map Task.description =
      db.rows.map Task.description ++ [pyStrip s] ∧
    GoodDescs (applyOp db op) := by
  constructor
  · simp [add_task, hs]
  · cases op with
    | add body now' =>
      show GoodDescs (add_task body now' db).2
      by_cases hb : pyStrip (body.getD "") = ""
      · simpa [add_task, hb] using hg
      · intro r hr
        rw [show (add_task body now' db).2.rows =
            db.rows ++ [Task.mk db.nextId (pyStrip (body.getD "")) (boolToInt false) now']
          from by simp [add_task, hb]] at hr
        rcases List.mem_append.mp hr with hr | hr
        · exact hg r hr
        · rw [List.mem_singleton.mp hr]
          exact ⟨hb, pyStrip_idem _⟩
    | toggle task_id =>
      show GoodDescs (complete_task task_id db).2
      cases hf : db.rows.find? (fun r => r.id == task_id) with
      | none =>
        intro r hr
        rw [show (complete_task task_id db).2 = db from by
          unfold complete_task; rw [hf]] at hr
        exact hg r hr
      | some t =>
        intro r hr
        rw [show (complete_task task_id db).2.rows =
            setCompleted task_id (boolToInt (! truthy t.completed)) db.rows
          from by rw [complete_task_found db task_id t hf]] at hr
        obtain ⟨r0, hr0, hr0eq⟩ := List.mem_map.mp hr
        have hdesc : r.description = r0.description := by
          rw [← hr0eq]
          by_cases hid : r0.id = task_id <;> simp [hid]
        rw [hdesc]
        exact hg r0 hr0
    | del task_id =>
      show GoodDescs (delete_task task_id db).2
      cases hf : db.rows.find? (fun r => r.id == task_id) with
      | none =>
        intro r hr
        rw [show (delete_task task_id db).2 = db from by
          unfold delete_task; rw [hf]] at hr
        exact hg r hr
      | some t =>
        intro r hr
        rw [show (delete_task task_id db).2.rows =
            db.rows.filter (fun r => ! (r.id == task_id)) from by
          unfold delete_task; rw [hf]] at hr
        exact hg r (List.mem_of_mem_filter hr)

/-- C9 witness: adding a padded description to the empty store while a
second add runs as the subsequent operation. -/
theorem stripped_description_invariant_witness :
    pyStrip " hi " ≠ "" ∧ GoodDescs emptyDB ∧
    ((add_task (some " hi ") 0 emptyDB).2.rows.map Task.description =
      emptyDB.rows.map Task.description ++ [pyStrip " hi "] ∧
    GoodDescs (applyOp emptyDB (Op.add (some "x") 1))) :=
  ⟨by decide, fun r hr => absurd hr (List.not_mem_nil r),
   stripped_description_invariant emptyDB " hi " 0 (Op.add (some "x") 1)
     (by decide) (fun r hr => absurd hr (List.not_mem_nil r))⟩

/-- C4 counterexample: `" "` is a non-empty description string, yet
`POST /add` answers 400 (not 201) and inserts no row. -/
theorem add_nonempty_description_counterexample :
    " " ≠ "" ∧
    add_task (some " ") 0 emptyDB =
      ((400, Body.err "Task description cannot be empty"), emptyDB) := by
  exact ⟨by decide, by decide⟩

/-- C4 (amended): for every description that is non-empty after trimming,
`POST /add` answers 201 with a single task whose `completed` is false and
whose `id` and `created_at` are store-generated, and the subsequent list
contains exactly one new task with those values. -/
theorem add_then_list_one_new (s : String) (now : Nat) (db : DB)
    (hs : pyStrip s ≠ "") (hWF : ∀ r ∈ db.rows, r.id < db.nextId) :
    add_task (some s) now db =
      ((201, Body.task (TaskOut.mk db.nextId (pyStrip s) false now)),
       DB.mk (db.rows ++ [Task.mk db.nextId (pyStrip s) 0 now]) (db.nextId + 1)) ∧
    (listAllJson (add_task (some s) now db).2).count
      (TaskOut.mk db.nextId (pyStrip s) false now) = 1 ∧
    TaskOut.mk db.nextId (pyStrip s) false now ∉ listAllJson db := by
  have hadd : add_task (some s) now db =
      ((201, Body.task (TaskOut.mk db.nextId (pyStrip s) false now)),
       DB.mk (db.rows ++ [Task.mk db.nextId (pyStrip s) 0 now]) (db.nextId + 1)) := by
    simp [add_task, hs, rowToJson, truthy, boolToInt]
  refine ⟨hadd, ?_, ?_⟩
  · rw [hadd]
    show (listAllJson (DB.mk (db.rows ++ [Task.mk db.nextId (pyStrip s) 0 now])
      (db.nextId + 1))).count _ = 1
    unfold listAllJson sortByCreatedDesc
    rw [((List.perm_insertionSort createdDesc
        (db.rows ++ [Task.mk db.nextId (pyStrip s) 0 now])).map rowToJson).count_eq,
      List.map_append, List.count_append]
    have h0 : (db.rows.map rowToJson).count
        (TaskOut.mk db.nextId (pyStrip s) false now) = 0 := by
      rw [List.count_eq_zero]
      intro hmem
      obtain ⟨r, hr, hreq⟩ := List.mem_map.mp hmem
      have hid : r.id = db.nextId := congrArg TaskOut.id hreq
      have := hWF r hr
      omega
    rw [h0]
    simp [rowToJson, truthy]
  · intro hmem
    unfold listAllJson sortByCreatedDesc at hmem
    obtain ⟨r, hr, hreq⟩ := List.mem_map.mp hmem
    have hrmem : r ∈ db.rows := (List.perm_insertionSort createdDesc db.rows).mem_iff.mp hr
    have hid : r.id = db.nextId := congrArg TaskOut.id hreq
    have := hWF r hrmem
    omega

/-- C4 witness: add `"a"` to the empty store. -/
theorem add_then_list_one_new_witness :
    pyStrip "a" ≠ "" ∧
    (add_task (some "a") 3 emptyDB =
      ((201, Body.task (TaskOut.mk emptyDB.nextId (pyStrip "a") false 3)),
       DB.mk (emptyDB.rows ++ [Task.mk emptyDB.nextId (pyStrip "a") 0 3])
         (emptyDB.nextId + 1)) ∧
    (listAllJson (add_task (some "a") 3 emptyDB).2).count
      (TaskOut.mk emptyDB.nextId (pyStrip "a") false 3) = 1 ∧
    TaskOut.mk emptyDB.nextId (pyStrip "a") false 3 ∉ listAllJson emptyDB) :=
  ⟨by decide, add_then_list_one_new "a" 3 emptyDB (by decide)
    (fun r hr => absurd hr (List.not_mem_nil r))⟩

/-- A successful add appends exactly one row. -/
theorem addAll_length (ops : List (String × Nat)) (db : DB)
    (h : ∀ p ∈ ops, pyStrip p.1 ≠ "") :
    (addAll ops db).rows.length = db.rows.length + ops.length := by
  induction ops generalizing db with
  | nil => simp [addAll]
  | cons p t ih =>
    have hstep : addAll (p :: t) db = addAll t ((add_task (some p.1) p.2 db).2) := rfl
    have hp : pyStrip p.1 ≠ "" := h p (List.mem_cons_self p t)
    rw [hstep, ih _ (fun q hq => h q (List.mem_cons_of_mem p hq))]
    have hone : (add_task (some p.1) p.2 db).2.rows.length = db.rows.length + 1 := by
      simp [add_task, hp]
    rw [hone]
    simp [List.length_cons]
    omega

/-- The JSON listing is always sorted by `created_at` descending. -/
theorem listAllJson_sorted (db : DB) :
    (listAllJson db).Pairwise (fun a b => b.created_at ≤ a.created_at) := by
  unfold listAllJson
  rw [List.pairwise_map]
  exact List.Pairwise.imp (fun hab => hab)
    (List.sorted_insertionSort createdDesc db.rows)

/-- C5: after N successful adds to an empty store, the listing holds
exactly N tasks, ordered by `created_at` descending (ties in unspecified
relative order). -/
theorem list_after_adds (ops : List (String × Nat))
    (h : ∀ p ∈ ops, pyStrip p.1 ≠ "") :
    (listAllJson (addAll ops emptyDB)).length = ops.length ∧
    (listAllJson (addAll ops emptyDB)).Pairwise
      (fun a b => b.created_at ≤ a.created_at) := by
  refine ⟨?_, listAllJson_sorted _⟩
  unfold listAllJson sortByCreatedDesc
  rw [List.length_map, (List.perm_insertionSort createdDesc _).length_eq,
    addAll_length ops emptyDB h]
  simp [emptyDB]

/-- C5 witness: two adds with distinct timestamps. -/
theorem list_after_adds_witness :
    (∀ p ∈ [("a", 1), ("b", 2)], pyStrip (Prod.fst p) ≠ "") ∧
    ((listAllJson (addAll [("a", 1), ("b", 2)] emptyDB)).length =
      (([("a", 1), ("b", 2)] : List (String × Nat))).length ∧
    (listAllJson (addAll [("a", 1), ("b", 2)] emptyDB)).Pairwise
      (fun a b => b.created_at ≤ a.created_at)) :=
  ⟨by decide, list_after_adds [("a", 1), ("b", 2)] (by decide)⟩

/-- The id `task_id` is bound to no row and is below the `AUTOINCREMENT`
counter, so it can never be assigned again. -/
def idFree (task_id : Nat) (db : DB) : Prop :=
  (∀ r ∈ db.rows, r.id ≠ task_id) ∧ task_id < db.nextId

/-- Every operation preserves `idFree`: adds allocate only fresh ids above
the counter, toggles rewrite in place, deletes only remove. -/
theorem idFree_applyOp (task_id : Nat) (db : DB) (op : Op)
    (h : idFree task_id db) : idFree task_id (applyOp db op) := by
  obtain ⟨hmem, hlt⟩ := h
  cases op with
  | add body now =>
    show idFree task_id (add_task body now db).2
    by_cases hb : pyStrip (body.getD "") = ""
    · rw [show (add_task body now db).2 = db from by simp [add_task, hb]]
      exact ⟨hmem, hlt⟩
    · constructor
      · intro r hr
        rw [show (add_task body now db).2.rows =
            db.rows ++ [Task.mk db.nextId (pyStrip (body.getD "")) (boolToInt false) now]
          from by simp [add_task, hb]] at hr
        rcases List.mem_append.mp hr with hr | hr
        · exact hmem r hr
        · rw [List.mem_singleton.mp hr]
          show db.nextId ≠ task_id
          omega
      · have hn : (add_task body now db).2.nextId = db.nextId + 1 := by
          simp [add_task, hb]
        rw [hn]
        omega
  | toggle tid =>
    show idFree task_id (complete_task tid db).2
    cases hf : db.rows.find? (fun r => r.id == tid) with
    | none =>
      rw [show (complete_task tid db).2 = db from by unfold complete_task; rw [hf]]
      exact ⟨hmem, hlt⟩
    | some t =>
      have hrows : (complete_task tid db).2.rows =
          setCompleted tid (boolToInt (! truthy t.completed)) db.rows := by
        rw [complete_task_found db tid t hf]
      have hnext : (complete_task tid db).2.nextId = db.nextId := by
        rw [complete_task_found db tid t hf]
      constructor
      · intro r hr
        rw [hrows] at hr
        obtain ⟨r0, hr0, hr0eq⟩ := List.mem_map.mp hr
        have hid : r.id = r0.id := by
          rw [← hr0eq]
          by_cases hid0 : r0.id = tid <;> simp [hid0]
        rw [hid]
        exact hmem r0 hr0
      · rw [hnext]
        exact hlt
  | del tid =>
    show idFree task_id (delete_task tid db).2
    cases hf : db.rows.find? (fun r => r.id == tid) with
    | none =>
      rw [show (delete_task tid db).2 = db from by unfold delete_task; rw [hf]]
      exact ⟨hmem, hlt⟩
    | some t =>
      have hrows : (delete_task tid db).2.rows =
          db.rows.filter (fun r => ! (r.id == tid)) := by
        unfold delete_task
        rw [hf]
      have hnext : (delete_task tid db).2.nextId = db.nextId := by
        unfold delete_task
        rw [hf]
      exact ⟨fun r hr => hmem r (List.mem_of_mem_filter (hrows ▸ hr)), hnext ▸ hlt⟩

/-- The predicate `idFree` is preserved by any sequence of operations. -/
theorem idFree_applyOps (task_id : Nat) (db : DB) (ops : List Op)
    (h : idFree task_id db) : idFree task_id (applyOps db ops) := by
  induction ops generalizing db with
  | nil => exact h
  | cons op t ih => exact ih _ (idFree_applyOp task_id db op h)

/-- C6: a successful delete answers 200 with the confirmation message and
removes the row permanently: after any further sequence of operations, no
listed task carries the deleted id (so the id is never reassigned). -/
theorem delete_permanent (db : DB) (task_id : Nat) (t : Task)
    (h : db.rows.find? (fun r => r.id == task_id) = some t)
    (hWF : ∀ r ∈ db.rows, r.id < db.nextId) :
    (delete_task task_id db).1 = (200, Body.msg "Task deleted successfully") ∧
    ∀ ops : List Op, ∀ tj ∈ listAllJson (applyOps (delete_task task_id db).2 ops),
      tj.id ≠ task_id := by
  have hresp : (delete_task task_id db).1 = (200, Body.msg "Task deleted successfully") := by
    unfold delete_task
    rw [h]
  refine ⟨hresp, ?_⟩
  have hfree : idFree task_id (delete_task task_id db).2 := by
    have hrows : (delete_task task_id db).2.rows =
        db.rows.filter (fun r => ! (r.id == task_id)) := by
      unfold delete_task
      rw [h]
    have hnext : (delete_task task_id db).2.nextId = db.nextId := by
      unfold delete_task
      rw [h]
    constructor
    · intro r hr
      rw [hrows] at hr
      simpa using List.of_mem_filter hr
    · rw [hnext]
      have hmemt := List.mem_of_find?_eq_some h
      have hpt : t.id = task_id := by simpa using List.find?_some h
      rw [← hpt]
      exact hWF t hmemt
  intro ops tj htj
  have hfree' := idFree_applyOps task_id _ ops hfree
  unfold listAllJson sortByCreatedDesc at htj
  obtain ⟨r, hr, hreq⟩ := List.mem_map.mp htj
  have hrmem : r ∈ (applyOps (delete_task task_id db).2 ops).rows :=
    (List.perm_insertionSort createdDesc _).mem_iff.mp hr
  rw [← hreq]
  exact hfree'.1 r hrmem

/-- C6 witness: delete the only task of a one-task store. -/
theorem delete_permanent_witness :
    (DB.mk [Task.mk 1 "a" 0 5] 2).rows.find? (fun r => r.id == 1) =
      some (Task.mk 1 "a" 0 5) ∧
    (∀ r ∈ (DB.mk [Task.mk 1 "a" 0 5] 2).rows, r.id < (DB.mk [Task.mk 1 "a" 0 5] 2).nextId) ∧
    ((delete_task 1 (DB.mk [Task.mk 1 "a" 0 5] 2)).1 =
      (200, Body.msg "Task deleted successfully") ∧
    ∀ ops : List Op,
      ∀ tj ∈ listAllJson (applyOps (delete_task 1 (DB.mk [Task.mk 1 "a" 0 5] 2)).2 ops),
        tj.id ≠ 1) :=
  ⟨rfl, by decide,
   delete_permanent (DB.mk [Task.mk 1 "a" 0 5] 2) 1 (Task.mk 1 "a" 0 5) rfl (by decide)⟩

end Todo
